import Mathlib

/-!
Shallow embedding of `webapp/main.js` (bootstrap sequencer of the
missolicitudes web application) and verification of its specification.

The JavaScript source is embedded as executable Lean definitions:
pure helpers become Lean functions, the async retry chain becomes a
structurally recursive function returning an effect trace together with a
result, and the deliberate `await new Promise(() => ...)` suspension is an
explicit terminal state.  Platform builtins (`JSON.parse`,
`JSON.stringify`, `String.prototype.includes`, `toLowerCase`) are modelled
by executable Lean implementations.
-/

namespace Missolicitudes

/-! ### String helpers (models of JS string builtins) -/

/-- Model of `a.startsWith(pat)` on character lists. -/
def listStartsWith : List Char → List Char → Bool
  | _, [] => true
  | [], _ :: _ => false
  | c :: cs, p :: ps => c = p && listStartsWith cs ps

/-- Helper for substring search: does `pat` occur in the list? -/
def listIncludesAux : List Char → List Char → Bool
  | [], pat => pat.isEmpty
  | c :: cs, pat => listStartsWith (c :: cs) pat || listIncludesAux cs pat

/-- Model of JS `s.includes(pat)`. -/
def jsIncludes (s pat : String) : Bool :=
  listIncludesAux s.data pat.data

/-- Model of JS `s.toLowerCase()` (ASCII case folding suffices for the
language tags involved). -/
def jsToLower (s : String) : String :=
  String.mk (s.data.map Char.toLower)

/-- Model of the JS `||` operator restricted to optional strings:
`undefined`/`null` and the empty string are falsy. -/
def jsOrStr (a : Option String) (b : String) : String :=
  match a with
  | some s => if s = "" then b else s
  | none => b

/-! ### JSON values (model of the values produced by `JSON.parse`) -/

/-- JSON value tree.  Numbers are modelled as rationals (JSON source
numbers are finite decimals). -/
inductive Json where
  | null
  | bool (b : Bool)
  | num (q : Rat)
  | str (s : String)
  | arr (elems : List Json)
  | obj (fields : List (String × Json))

/-- Insertion into an object's field list with JS semantics: a repeated
key overwrites the earlier value in place. -/
def insertField (fs : List (String × Json)) (k : String) (v : Json) :
    List (String × Json) :=
  match fs with
  | [] => [(k, v)]
  | (k2, v2) :: rest =>
    if k2 = k then (k2, v) :: rest else (k2, v2) :: insertField rest k v

/-- JS truthiness of a JSON value (`null`, `false`, `0` and `""` are
falsy; objects and arrays are always truthy). -/
def Json.isTruthy : Json → Bool
  | Json.null => false
  | Json.bool b => b
  | Json.num q => if q = 0 then false else true
  | Json.str s => if s = "" then false else true
  | Json.arr _ => true
  | Json.obj _ => true

/-- Model of JS property access `v[k]`: `none` plays the role of
`undefined` (primitives have no own data properties). -/
def Json.getField : Json → String → Option Json
  | Json.obj fs, k => fs.lookup k
  | _, _ => none

/-- Truthiness of `v[k]` (missing properties are falsy `undefined`). -/
def fieldTruthy (v : Json) (k : String) : Bool :=
  match v.getField k with
  | some w => w.isTruthy
  | none => false

/-! ### JSON parser (model of `JSON.parse`) -/

/-- The character `{` (written via its code point). -/
def lbrace : Char := Char.ofNat 123

/-- The character `}` (written via its code point). -/
def rbrace : Char := Char.ofNat 125

/-- Skip JSON insignificant whitespace (space, tab, newline, carriage
return). -/
def jsonSkipWs : List Char → List Char
  | [] => []
  | c :: cs =>
    if c = ' ' ∨ c = '\t' ∨ c = '\n' ∨ c = Char.ofNat 13 then jsonSkipWs cs
    else c :: cs

/-- Value of a hexadecimal digit. -/
def hexVal (c : Char) : Option Nat :=
  if c.isDigit then some (c.toNat - 48)
  else if 97 ≤ c.toNat ∧ c.toNat ≤ 102 then some (c.toNat - 87)
  else if 65 ≤ c.toNat ∧ c.toNat ≤ 70 then some (c.toNat - 55)
  else none

/-- Parse the body of a JSON string literal (after the opening quote),
accumulating decoded characters; returns the string and the rest of the
input.  Invalid escapes and raw control characters are rejected, as in
`JSON.parse`. -/
def parseStringChars : Nat → List Char → List Char → Option (String × List Char)
  | 0, _, _ => none
  | _ + 1, [], _ => none
  | f + 1, c :: rest, acc =>
    if c = '"' then some (String.mk acc.reverse, rest)
    else if c = '\\' then
      match rest with
      | [] => none
      | e :: rest2 =>
        if e = '"' then parseStringChars f rest2 ('"' :: acc)
        else if e = '\\' then parseStringChars f rest2 ('\\' :: acc)
        else if e = '/' then parseStringChars f rest2 ('/' :: acc)
        else if e = 'b' then parseStringChars f rest2 (Char.ofNat 8 :: acc)
        else if e = 'f' then parseStringChars f rest2 (Char.ofNat 12 :: acc)
        else if e = 'n' then parseStringChars f rest2 ('\n' :: acc)
        else if e = 'r' then parseStringChars f rest2 (Char.ofNat 13 :: acc)
        else if e = 't' then parseStringChars f rest2 ('\t' :: acc)
        else if e = 'u' then
          match rest2 with
          | h1 :: h2 :: h3 :: h4 :: rest3 =>
            match hexVal h1, hexVal h2, hexVal h3, hexVal h4 with
            | some a, some b, some c2, some d =>
              parseStringChars f rest3
                (Char.ofNat (((a * 16 + b) * 16 + c2) * 16 + d) :: acc)
            | _, _, _, _ => none
          | _ => none
        else none
    else if c.toNat < 32 then none
    else parseStringChars f rest (c :: acc)

/-- Digits to a natural number (most significant first). -/
def digitsToNat (ds : List Char) (acc : Nat) : Nat :=
  match ds with
  | [] => acc
  | c :: rest => digitsToNat rest (acc * 10 + (c.toNat - 48))

/-- Powers of ten as integers. -/
def pow10 : Nat → Int
  | 0 => 1
  | n + 1 => 10 * pow10 n

/-- Assemble a decimal mantissa with `scale` fractional digits into a
rational. -/
def finishNum (mant : Int) (scale : Nat) : Rat :=
  if scale = 0 then (mant : Rat) else (mant : Rat) / ((pow10 scale : Int) : Rat)

/-- Parse the exponent part of a JSON number (input starts right after
`e`/`E`). -/
def parseExponent (cs : List Char) (mant : Int) (scale : Nat) :
    Option (Rat × List Char) :=
  let p : Int × List Char :=
    match cs with
    | c :: rest =>
      if c = '+' then ((1 : Int), rest)
      else if c = '-' then ((-1 : Int), rest)
      else ((1 : Int), cs)
    | [] => ((1 : Int), cs)
  let ds := p.2.takeWhile Char.isDigit
  if ds.isEmpty then none
  else
    let rest := p.2.dropWhile Char.isDigit
    let e : Int := p.1 * (digitsToNat ds 0 : Int)
    let exTotal : Int := e - (scale : Int)
    let q : Rat :=
      if 0 ≤ exTotal then (mant : Rat) * ((pow10 exTotal.toNat : Int) : Rat)
      else (mant : Rat) / ((pow10 (-exTotal).toNat : Int) : Rat)
    some (q, rest)

/-- Parse a JSON number (strict grammar: optional minus, no leading
zeros, optional fraction and exponent). -/
def parseNumber (cs : List Char) : Option (Rat × List Char) :=
  let p : Bool × List Char :=
    match cs with
    | c :: rest => if c = '-' then (true, rest) else (false, cs)
    | [] => (false, cs)
  match p.2 with
  | [] => none
  | d0 :: _ =>
    if ¬ d0.isDigit then none
    else
      let intDs := p.2.takeWhile Char.isDigit
      let cs2 := p.2.dropWhile Char.isDigit
      if intDs.length > 1 ∧ d0 = '0' then none
      else
        let fr : List Char × List Char :=
          match cs2 with
          | c :: rest =>
            if c = '.' then (rest.takeWhile Char.isDigit, rest.dropWhile Char.isDigit)
            else ([], cs2)
          | [] => ([], cs2)
        if (match cs2 with | c :: _ => c == '.' | [] => false) && fr.1.isEmpty then none
        else
          let mantNat := digitsToNat (intDs ++ fr.1) 0
          let mant : Int := if p.1 then -(mantNat : Int) else (mantNat : Int)
          let scale := fr.1.length
          match fr.2 with
          | c :: rest =>
            if c = 'e' ∨ c = 'E' then parseExponent rest mant scale
            else some (finishNum mant scale, fr.2)
          | [] => some (finishNum mant scale, [])

mutual

/-- Parse one JSON value at the head of the input (no leading
whitespace). -/
def parseValue : Nat → List Char → Option (Json × List Char)
  | 0, _ => none
  | f + 1, cs =>
    match cs with
    | [] => none
    | c :: rest =>
      if c = '"' then
        match parseStringChars (rest.length + 1) rest [] with
        | some (s, r) => some (Json.str s, r)
        | none => none
      else if c = lbrace then
        let cs2 := jsonSkipWs rest
        match cs2 with
        | c2 :: rest2 =>
          if c2 = rbrace then some (Json.obj [], rest2) else parseMembers f cs2 []
        | [] => none
      else if c = '[' then
        let cs2 := jsonSkipWs rest
        match cs2 with
        | c2 :: rest2 =>
          if c2 = ']' then some (Json.arr [], rest2) else parseElems f cs2 []
        | [] => none
      else if c = 't' then
        match cs with
        | 't' :: 'r' :: 'u' :: 'e' :: r => some (Json.bool true, r)
        | _ => none
      else if c = 'f' then
        match cs with
        | 'f' :: 'a' :: 'l' :: 's' :: 'e' :: r => some (Json.bool false, r)
        | _ => none
      else if c = 'n' then
        match cs with
        | 'n' :: 'u' :: 'l' :: 'l' :: r => some (Json.null, r)
        | _ => none
      else
        match parseNumber cs with
        | some (q, r) => some (Json.num q, r)
        | none => none

/-- Parse the members of a JSON object (input starts at the first key,
whitespace already skipped). -/
def parseMembers : Nat → List Char → List (String × Json) → Option (Json × List Char)
  | 0, _, _ => none
  | f + 1, cs, acc =>
    match cs with
    | c :: rest =>
      if c = '"' then
        match parseStringChars (rest.length + 1) rest [] with
        | some (k, r1) =>
          match jsonSkipWs r1 with
          | c2 :: r2 =>
            if c2 = ':' then
              match parseValue f (jsonSkipWs r2) with
              | some (v, r3) =>
                match jsonSkipWs r3 with
                | c3 :: r4 =>
                  if c3 = ',' then parseMembers f (jsonSkipWs r4) (insertField acc k v)
                  else if c3 = rbrace then some (Json.obj (insertField acc k v), r4)
                  else none
                | [] => none
              | none => none
            else none
          | [] => none
        | none => none
      else none
    | [] => none

/-- Parse the elements of a JSON array (input starts at the first
element, whitespace already skipped). -/
def parseElems : Nat → List Char → List Json → Option (Json × List Char)
  | 0, _, _ => none
  | f + 1, cs, acc =>
    match parseValue f cs with
    | some (v, r1) =>
      match jsonSkipWs r1 with
      | c :: r2 =>
        if c = ',' then parseElems f (jsonSkipWs r2) (acc ++ [v])
        else if c = ']' then some (Json.arr (acc ++ [v]), r2)
        else none
      | [] => none
    | none => none

end

/-- Model of `JSON.parse`: parse the whole string (surrounding
whitespace allowed); `none` models a thrown `SyntaxError`. -/
def jsonParse (s : String) : Option Json :=
  match parseValue (2 * s.length + 4) (jsonSkipWs s.data) with
  | some (v, rest) => if (jsonSkipWs rest).isEmpty then some v else none
  | none => none

/-! ### JSON serialisation (model of `JSON.stringify`) -/

/-- Lower-case hexadecimal digit character. -/
def hexDigitChar (n : Nat) : Char :=
  if n < 10 then Char.ofNat (48 + n) else Char.ofNat (87 + n)

/-- Escape one character for a JSON string literal. -/
def escapeChar (c : Char) : String :=
  if c = '"' then "\\\""
  else if c = '\\' then "\\\\"
  else if c = '\n' then "\\n"
  else if c = Char.ofNat 13 then "\\r"
  else if c = '\t' then "\\t"
  else if c = Char.ofNat 8 then "\\b"
  else if c = Char.ofNat 12 then "\\f"
  else if c.toNat < 32 then
    "\\u00" ++ String.singleton (hexDigitChar (c.toNat / 16))
      ++ String.singleton (hexDigitChar (c.toNat % 16))
  else String.singleton c

/-- Escape a string for inclusion in JSON output. -/
def escapeString (s : String) : String :=
  String.join (s.data.map escapeChar)

mutual

/-- Model of `JSON.stringify` (no indentation, as called in `main`). -/
def Json.stringify : Json → String
  | Json.null => "null"
  | Json.bool b => if b then "true" else "false"
  | Json.num q => if q.den = 1 then toString q.num else toString q
  | Json.str s => "\"" ++ escapeString s ++ "\""
  | Json.arr es => "[" ++ stringifyElems es ++ "]"
  | Json.obj fs => String.singleton lbrace ++ stringifyFields fs ++ String.singleton rbrace

/-- Comma-separated serialisation of array elements. -/
def stringifyElems : List Json → String
  | [] => ""
  | [v] => Json.stringify v
  | v :: r => Json.stringify v ++ "," ++ stringifyElems r

/-- Comma-separated serialisation of object members. -/
def stringifyFields : List (String × Json) → String
  | [] => ""
  | [(k, v)] => "\"" ++ escapeString k ++ "\":" ++ Json.stringify v
  | (k, v) :: r =>
    "\"" ++ escapeString k ++ "\":" ++ Json.stringify v ++ "," ++ stringifyFields r

end

/-! ### HTTP responses and `parseJsonResponse` -/

/-- An HTTP response as observed through the `fetch` API: status,
status text and body text (`response.text()`).  The content type is kept
because the source reads it (it is only logged, never branched on). -/
structure Response where
  status : Nat
  statusText : String
  contentType : Option String
  body : String

/-- The `ok` property of a fetch `Response`: status in the 2xx range. -/
def Response.ok (r : Response) : Bool :=
  200 ≤ r.status && r.status < 300

/-- Outcome of one `fetch` call: either the promise rejects with an
error message, or an HTTP response arrives. -/
inductive FetchOutcome where
  | thrown (msg : String)
  | resp (r : Response)

/-- The HTML detection of `parseJsonResponse`:
`sResponseText.trim().startsWith("<") || sResponseText.includes("<html>")`. -/
def isHtmlBody (s : String) : Bool :=
  listStartsWith (s.data.dropWhile Char.isWhitespace) ['<'] || jsIncludes s "<html>"

/-- Model of `parseJsonResponse`: `none` when the body looks like HTML or
`JSON.parse` throws, otherwise the parsed value.  (The content-type check
in the source only emits a console warning.) -/
def parseJsonResponse (r : Response) : Option Json :=
  if isHtmlBody r.body then none
  else jsonParse r.body

/-! ### `fetchCurrentUser` -/

/-- Observable effects of the bootstrap, in order of occurrence.
`logout` stands for the `GET /logout` request issued by
`forceLogoutAndReload` (followed by a page reload once it completes). -/
inductive Eff where
  | fetchAttempt (n : Nat)
  | delay (ms : Nat)
  | logout
  | readBrowserLanguage
  | sessionSet (key : String) (val : String)
  | sfsfQuery (userId : Json)
  | setLanguage (lang : String)
  | mount

/-- Terminal state of one `fetchCurrentUser` call chain: resolve with the
user, reject with an error message, or suspend forever
(`await new Promise(() => ...)` after forced re-authentication). -/
inductive FetchResult where
  | ok (user : Json)
  | err (msg : String)
  | suspend

/-- Control outcome of the `try` block of `fetchCurrentUser` for one
attempt, before retry handling. -/
inductive TryOut where
  | success (u : Json)
  | authSuspend
  | sessionSuspend
  | threw (msg : String)
  | httpError (msg : String)

/-- The message of the error thrown when the user object has no truthy
`name` property. -/
def invalidUserMsg : String :=
  "Datos de usuario inválidos: falta el campo \x27name\x27"

/-- The `try` block of `fetchCurrentUser` for a single attempt:
mirror of lines 83–134 of the source.  `httpError` is the non-auth HTTP
failure (its throw site sits inside the `try`, after the retry check);
`threw` is an error reaching the `catch` directly. -/
def tryBody (o : FetchOutcome) : TryOut :=
  match o with
  | FetchOutcome.thrown msg => TryOut.threw msg
  | FetchOutcome.resp r =>
    if r.ok then
      match parseJsonResponse r with
      | none => TryOut.sessionSuspend
      | some v =>
        if v.isTruthy then
          if fieldTruthy v "name" then TryOut.success v
          else TryOut.threw invalidUserMsg
        else TryOut.sessionSuspend
    else
      if r.status = 401 ∨ r.status = 403 then TryOut.authSuspend
      else TryOut.httpError ("Error del servidor: " ++ toString r.status ++ " " ++ r.statusText)

/-- Worker for `fetchCurrentUser`, structurally recursive on
`remaining = maxRetries - attempt` (the guard `attempt < maxRetries`
holds exactly when `remaining` is a successor; see
`fetchCurrentUser_unfold` for the equation in source form).  The returned
list is the trace of effects, each attempt contributing its `fetch`
call, and either a logout, a retry delay, or nothing. -/
def fetchGo (env : Nat → FetchOutcome) (retryDelay : Nat) :
    Nat → Nat → List Eff × FetchResult
  | remaining, attempt =>
    match tryBody (env attempt) with
    | TryOut.success u => ([Eff.fetchAttempt attempt], FetchResult.ok u)
    | TryOut.authSuspend => ([Eff.fetchAttempt attempt, Eff.logout], FetchResult.suspend)
    | TryOut.sessionSuspend => ([Eff.fetchAttempt attempt, Eff.logout], FetchResult.suspend)
    | TryOut.httpError msg =>
      match remaining with
      | r + 1 =>
        let p := fetchGo env retryDelay r (attempt + 1)
        (Eff.fetchAttempt attempt :: Eff.delay retryDelay :: p.1, p.2)
      | 0 =>
        if attempt == 1 && (jsIncludes msg "JSON" || jsIncludes msg "HTML") then
          ([Eff.fetchAttempt attempt, Eff.logout], FetchResult.suspend)
        else ([Eff.fetchAttempt attempt], FetchResult.err msg)
    | TryOut.threw msg =>
      if attempt == 1 && (jsIncludes msg "JSON" || jsIncludes msg "HTML") then
        ([Eff.fetchAttempt attempt, Eff.logout], FetchResult.suspend)
      else
        match remaining with
        | r + 1 =>
          let p := fetchGo env retryDelay r (attempt + 1)
          (Eff.fetchAttempt attempt :: Eff.delay retryDelay :: p.1, p.2)
        | 0 => ([Eff.fetchAttempt attempt], FetchResult.err msg)

/-- Model of `fetchCurrentUser(attempt, maxRetries, retryDelay)`.  The
environment `env` gives the outcome of the fetch performed on each
attempt number. -/
def fetchCurrentUser (env : Nat → FetchOutcome) (attempt maxRetries retryDelay : Nat) :
    List Eff × FetchResult :=
  fetchGo env retryDelay (maxRetries - attempt) attempt

/-- The error message carried by a failing fetch outcome (the thrown
message, or the `Error del servidor` message built from the status). -/
def failureMsg (o : FetchOutcome) : String :=
  match o with
  | FetchOutcome.thrown m => m
  | FetchOutcome.resp r => "Error del servidor: " ++ toString r.status ++ " " ++ r.statusText

/-- Attempt `a` fails with a generic (non-auth, non-session) error:
either an HTTP failure with a status other than 401/403, or a thrown
error whose message contains neither `"JSON"` nor `"HTML"`. -/
def genericFailureAt (env : Nat → FetchOutcome) (a : Nat) : Prop :=
  match env a with
  | FetchOutcome.thrown m => jsIncludes m "JSON" = false ∧ jsIncludes m "HTML" = false
  | FetchOutcome.resp r => r.ok = false ∧ r.status ≠ 401 ∧ r.status ≠ 403

/-- Effects that can be emitted by the user-fetch phase. -/
def isFetchPhase : Eff → Bool
  | Eff.fetchAttempt _ => true
  | Eff.delay _ => true
  | Eff.logout => true
  | _ => false

/-- Number of fetch attempts recorded in a trace. -/
def countFetchAttempts : List Eff → Nat
  | [] => 0
  | Eff.fetchAttempt _ :: r => countFetchAttempts r + 1
  | _ :: r => countFetchAttempts r

/-! ### `getBrowserLanguage` -/

/-- The browser-language mapping table `mMap` of `getBrowserLanguage`. -/
def mMap (s : String) : Option String :=
  if s = "es" then some "es_ES"
  else if s = "es-es" then some "es_ES"
  else if s = "ca" then some "ca_ES"
  else if s = "ca-es" then some "ca_ES"
  else if s = "en" then some "en_US"
  else if s = "en-us" then some "en_US"
  else if s = "ca_es" then some "ca_ES"
  else if s = "en_us" then some "en_US"
  else if s = "es_es" then some "es_ES"
  else none

/-- The effective lower-cased browser tag:
`(navigator.language || navigator.userLanguage || "en").toLowerCase()`. -/
def browserTag (language userLanguage : Option String) : String :=
  jsToLower (jsOrStr language (jsOrStr userLanguage "en"))

/-- Model of `getBrowserLanguage` (parametrised by the two navigator
fields): `mMap[sLang] || "en_US"`. -/
def getBrowserLanguage (language userLanguage : Option String) : String :=
  jsOrStr (mMap (browserTag language userLanguage)) "en_US"

/-! ### `fetchUserLanguageFromSFSF` -/

/-- One record of the Directory Service answer (the query selects
`defaultLocale,userId`).  `none` models an absent field. -/
structure SFSFRecord where
  userId : Option String
  defaultLocale : Option String

/-- Outcome of the OData `read` on `/User`: the `success` callback with a
results list, or the `error` callback. -/
inductive ODataOutcome where
  | success (results : List SFSFRecord)
  | failure

/-- Model of `fetchUserLanguageFromSFSF`: resolves with the first
record's truthy `defaultLocale`, and with `null` (`none`) on an empty
result list, a falsy locale, or a query error — it never rejects (the
`error` callback calls `resolve(null)` and the surrounding `try` returns
`null`). -/
def fetchUserLanguageFromSFSF (o : ODataOutcome) : Option String :=
  match o with
  | ODataOutcome.success results =>
    match results with
    | [] => none
    | r :: _ =>
      match r.defaultLocale with
      | some s => if s = "" then none else some s
      | none => none
  | ODataOutcome.failure => none

/-! ### `main` and the top-level catch -/

/-- Environment of one run of `main`: fetch outcomes per attempt, the
Directory Service outcome, the navigator language fields, and fault
injection for the external framework calls (`true` at index `i` means the
`i`-th framework call of the bootstrap throws after being issued; 0 is
`setLanguage` in `main`, 1 the mount in `main`, 2 and 3 the same calls in
the top-level catch handler). -/
structure MainEnv where
  fetchEnv : Nat → FetchOutcome
  odata : ODataOutcome
  navLanguage : Option String
  navUserLanguage : Option String
  frameworkFaults : Nat → Bool

/-- Terminal status of `main` (and of the whole bootstrap). -/
inductive MainStatus where
  | done
  | suspended
  | errored

/-- JS truthiness of the `sLanguage` variable. -/
def optTruthy (o : Option String) : Bool :=
  match o with
  | some s => if s = "" then false else true
  | none => false

/-- Steps 3–5 of `main`: fall back to the browser language when
`sLanguage` is falsy, set the framework language, and mount the root
component.  Effects are recorded when the corresponding call is issued;
an injected fault makes the rest of `main` unreachable. -/
def applyLocaleAndMount (env : MainEnv) (effs : List Eff) (sLanguage : Option String) :
    List Eff × MainStatus :=
  let chosen : List Eff × String :=
    if optTruthy sLanguage then (effs, sLanguage.getD "")
    else (effs ++ [Eff.readBrowserLanguage],
      getBrowserLanguage env.navLanguage env.navUserLanguage)
  let effs3 := chosen.1 ++ [Eff.setLanguage chosen.2]
  if env.frameworkFaults 0 then (effs3, MainStatus.errored)
  else
    let effs4 := effs3 ++ [Eff.mount]
    if env.frameworkFaults 1 then (effs4, MainStatus.errored)
    else (effs4, MainStatus.done)

/-- Model of `main()`: fetch the user with 5 attempts and 1000 ms delay;
on success store the serialised user under the session key and query the
Directory Service for the locale; on failure continue with defaults;
then apply the locale and mount. -/
def mainRun (env : MainEnv) : List Eff × MainStatus :=
  match fetchCurrentUser env.fetchEnv 1 5 1000 with
  | (fsteps, FetchResult.suspend) => (fsteps, MainStatus.suspended)
  | (fsteps, FetchResult.err _) => applyLocaleAndMount env fsteps none
  | (fsteps, FetchResult.ok u) =>
    let effs := fsteps ++ [Eff.sessionSet "com:missolicitudes:userInfo" u.stringify]
    if u.isTruthy && fieldTruthy u "name" then
      applyLocaleAndMount env
        (effs ++ [Eff.sfsfQuery ((u.getField "name").getD Json.null)])
        (fetchUserLanguageFromSFSF env.odata)
    else applyLocaleAndMount env effs none

/-- Model of the whole script: `main().catch(...)`.  When `main` rejects,
the handler derives the locale from the browser, applies it and mounts
the application. -/
def bootstrap (env : MainEnv) : List Eff × MainStatus :=
  match mainRun env with
  | (effs, MainStatus.errored) =>
    let effs2 := effs ++ [Eff.readBrowserLanguage,
      Eff.setLanguage (getBrowserLanguage env.navLanguage env.navUserLanguage)]
    if env.frameworkFaults 2 then (effs2, MainStatus.errored)
    else
      let effs3 := effs2 ++ [Eff.mount]
      if env.frameworkFaults 3 then (effs3, MainStatus.errored)
      else (effs3, MainStatus.done)
  | other => other

/-! ### Concrete environments used as witnesses -/

/-- HTTP 200 response whose body is the empty JSON object. -/
def respEmptyObj : Response :=
  ⟨200, "OK", some "application/json", "\x7b\x7d"⟩

/-- HTTP 200 response with a valid user body. -/
def respAlice : Response :=
  ⟨200, "OK", some "application/json", "\x7b\"name\":\"Alice\"\x7d"⟩

/-- The user object parsed from `respAlice`. -/
def userAlice : Json := Json.obj [("name", Json.str "Alice")]

/-- Generic HTTP 500 response. -/
def resp500 : Response :=
  ⟨500, "Internal Server Error", none, ""⟩

/-- HTTP 200 response with an empty (hence unparsable) body. -/
def respEmptyBody : Response :=
  ⟨200, "OK", some "application/json", ""⟩

/-- HTTP 401 response. -/
def resp401 : Response :=
  ⟨401, "Unauthorized", none, ""⟩

/-- Environment: every attempt gets the empty JSON object. -/
def envEmptyObj : Nat → FetchOutcome := fun _ => FetchOutcome.resp respEmptyObj

/-- Environment: every attempt gets a 401. -/
def env401 : Nat → FetchOutcome := fun _ => FetchOutcome.resp resp401

/-- Environment: generic 500 on attempts 1–4, valid user on attempt 5. -/
def envFlaky : Nat → FetchOutcome := fun n =>
  if n = 5 then FetchOutcome.resp respAlice else FetchOutcome.resp resp500

/-- Environment: every attempt throws a plain network error. -/
def envNetworkDown : Nat → FetchOutcome := fun _ => FetchOutcome.thrown "network down"

/-- Environment: every attempt gets an empty body. -/
def envEmptyBody : Nat → FetchOutcome := fun _ => FetchOutcome.resp respEmptyBody

/-- Main environment for the flaky-then-success scenario, with a
Directory Service record carrying `ca_ES` and no framework faults. -/
def menvFlaky : MainEnv :=
  ⟨envFlaky, ODataOutcome.success [⟨some "Alice", some "ca_ES"⟩], some "es-ES", none,
    fun _ => false⟩

/-- Main environment where the user fetch succeeds at once. -/
def menvQuick : MainEnv :=
  ⟨fun _ => FetchOutcome.resp respAlice, ODataOutcome.failure, none, none, fun _ => false⟩

/-- Main environment where all attempts fail with a network error and no
framework call faults. -/
def menvAllFail : MainEnv :=
  ⟨envNetworkDown, ODataOutcome.failure, none, none, fun _ => false⟩

/-- Main environment where all attempts fail and the `setLanguage` call
inside `main` throws (index 0), while the handler's calls succeed. -/
def menvMainFaults : MainEnv :=
  ⟨envNetworkDown, ODataOutcome.failure, none, none, fun n => n == 0⟩

/-! ### General lemmas about `fetchCurrentUser` -/

/-- Unfolding equation for `fetchCurrentUser` in the shape of the
JavaScript source: one attempt's `try` body, the auth / session
suspensions, the in-`try` retry for non-auth HTTP failures, and the
`catch` block with its attempt-1 session heuristic and its retry. -/
theorem fetchCurrentUser_unfold (env : Nat → FetchOutcome)
    (attempt maxRetries retryDelay : Nat) :
    fetchCurrentUser env attempt maxRetries retryDelay =
      match tryBody (env attempt) with
      | TryOut.success u => ([Eff.fetchAttempt attempt], FetchResult.ok u)
      | TryOut.authSuspend =>
        ([Eff.fetchAttempt attempt, Eff.logout], FetchResult.suspend)
      | TryOut.sessionSuspend =>
        ([Eff.fetchAttempt attempt, Eff.logout], FetchResult.suspend)
      | TryOut.httpError msg =>
        if attempt < maxRetries then
          (Eff.fetchAttempt attempt :: Eff.delay retryDelay ::
              (fetchCurrentUser env (attempt + 1) maxRetries retryDelay).1,
            (fetchCurrentUser env (attempt + 1) maxRetries retryDelay).2)
        else if attempt == 1 && (jsIncludes msg "JSON" || jsIncludes msg "HTML") then
          ([Eff.fetchAttempt attempt, Eff.logout], FetchResult.suspend)
        else ([Eff.fetchAttempt attempt], FetchResult.err msg)
      | TryOut.threw msg =>
        if attempt == 1 && (jsIncludes msg "JSON" || jsIncludes msg "HTML") then
          ([Eff.fetchAttempt attempt, Eff.logout], FetchResult.suspend)
        else if attempt < maxRetries then
          (Eff.fetchAttempt attempt :: Eff.delay retryDelay ::
              (fetchCurrentUser env (attempt + 1) maxRetries retryDelay).1,
            (fetchCurrentUser env (attempt + 1) maxRetries retryDelay).2)
        else ([Eff.fetchAttempt attempt], FetchResult.err msg) := by
  by_cases h : attempt < maxRetries
  · obtain ⟨k, hk⟩ : ∃ k, maxRetries - attempt = k + 1 :=
      ⟨maxRetries - attempt - 1, by omega⟩
    have hk2 : maxRetries - (attempt + 1) = k := by omega
    have hrec : fetchGo env retryDelay k (attempt + 1)
        = fetchCurrentUser env (attempt + 1) maxRetries retryDelay := by
      rw [fetchCurrentUser, hk2]
    have hgo : fetchCurrentUser env attempt maxRetries retryDelay
        = fetchGo env retryDelay (k + 1) attempt := by
      rw [fetchCurrentUser, hk]
    rw [hgo]
    conv_lhs => rw [fetchGo]
    cases htb : tryBody (env attempt) with
    | success u => rfl
    | authSuspend => rfl
    | sessionSuspend => rfl
    | httpError msg =>
      dsimp only
      rw [if_pos h, hrec]
    | threw msg =>
      dsimp only
      by_cases hc : (attempt == 1 && (jsIncludes msg "JSON" || jsIncludes msg "HTML")) = true
      · rw [if_pos hc, if_pos hc]
      · rw [if_neg hc, if_neg hc, if_pos h, hrec]
  · have hk : maxRetries - attempt = 0 := by omega
    have hgo : fetchCurrentUser env attempt maxRetries retryDelay
        = fetchGo env retryDelay 0 attempt := by
      rw [fetchCurrentUser, hk]
    rw [hgo]
    conv_lhs => rw [fetchGo]
    cases htb : tryBody (env attempt) with
    | success u => rfl
    | authSuspend => rfl
    | sessionSuspend => rfl
    | httpError msg =>
      dsimp only
      rw [if_neg h]
    | threw msg =>
      dsimp only
      by_cases hc : (attempt == 1 && (jsIncludes msg "JSON" || jsIncludes msg "HTML")) = true
      · rw [if_pos hc, if_pos hc]
      · rw [if_neg hc, if_neg hc, if_neg h]

/-- A successful attempt resolves immediately with the parsed user. -/
theorem fetch_success_step (env : Nat → FetchOutcome) (a mr rd : Nat)
    (r : Response) (v : Json) (he : env a = FetchOutcome.resp r)
    (hok : r.ok = true) (hp : parseJsonResponse r = some v)
    (ht : v.isTruthy = true) (hn : fieldTruthy v "name" = true) :
    fetchCurrentUser env a mr rd = ([Eff.fetchAttempt a], FetchResult.ok v) := by
  have htb : tryBody (env a) = TryOut.success v := by
    simp [tryBody, he, hok, hp, ht, hn]
  rw [fetchCurrentUser_unfold, htb]

/-- A generic failing attempt below the retry budget delays and hands
over to the next attempt. -/
theorem fetch_retry_step (env : Nat → FetchOutcome) (a mr rd : Nat)
    (h : a < mr) (hg : genericFailureAt env a) :
    fetchCurrentUser env a mr rd =
      (Eff.fetchAttempt a :: Eff.delay rd ::
          (fetchCurrentUser env (a + 1) mr rd).1,
        (fetchCurrentUser env (a + 1) mr rd).2) := by
  unfold genericFailureAt at hg
  cases henv : env a with
  | thrown m =>
    rw [henv] at hg
    have htb : tryBody (env a) = TryOut.threw m := by simp [tryBody, henv]
    rw [fetchCurrentUser_unfold, htb]
    simp [hg.1, hg.2, h]
  | resp r =>
    rw [henv] at hg
    have htb : tryBody (env a) =
        TryOut.httpError ("Error del servidor: " ++ toString r.status ++ " " ++ r.statusText) := by
      simp [tryBody, henv, hg.1, hg.2.1, hg.2.2]
    rw [fetchCurrentUser_unfold, htb]
    simp [h]

/-- A generic failing attempt at the retry budget (for an attempt number
other than 1) rejects with the failure's message. -/
theorem fetch_final_step (env : Nat → FetchOutcome) (a mr rd : Nat)
    (h : ¬ a < mr) (h1 : a ≠ 1) (hg : genericFailureAt env a) :
    fetchCurrentUser env a mr rd =
      ([Eff.fetchAttempt a], FetchResult.err (failureMsg (env a))) := by
  unfold genericFailureAt at hg
  have hb : (a == 1) = false := by simp [h1]
  cases henv : env a with
  | thrown m =>
    rw [henv] at hg
    have htb : tryBody (env a) = TryOut.threw m := by simp [tryBody, henv]
    rw [fetchCurrentUser_unfold, htb]
    simp [hb, h, failureMsg, henv]
  | resp r =>
    rw [henv] at hg
    have htb : tryBody (env a) =
        TryOut.httpError ("Error del servidor: " ++ toString r.status ++ " " ++ r.statusText) := by
      simp [tryBody, henv, hg.1, hg.2.1, hg.2.2]
    rw [fetchCurrentUser_unfold, htb]
    simp [hb, h, failureMsg, henv]

/-- The trace of a retry chain starting with `remaining` allowed retries
records at most `remaining + 1` fetch attempts. -/
theorem fetchGo_count (env : Nat → FetchOutcome) (rd : Nat) :
    ∀ remaining a, countFetchAttempts (fetchGo env rd remaining a).1 ≤ remaining + 1 := by
  intro remaining
  induction remaining with
  | zero =>
    intro a
    conv_lhs => rw [fetchGo]
    cases htb : tryBody (env a) with
    | success u => simp [countFetchAttempts]
    | authSuspend => simp [countFetchAttempts]
    | sessionSuspend => simp [countFetchAttempts]
    | httpError msg =>
      dsimp only
      split <;> simp [countFetchAttempts]
    | threw msg =>
      dsimp only
      split <;> simp [countFetchAttempts]
  | succ k ih =>
    intro a
    conv_lhs => rw [fetchGo]
    cases htb : tryBody (env a) with
    | success u => simp [countFetchAttempts]
    | authSuspend => simp [countFetchAttempts]
    | sessionSuspend => simp [countFetchAttempts]
    | httpError msg =>
      dsimp only
      have := ih (a + 1)
      simp [countFetchAttempts]
      omega
    | threw msg =>
      dsimp only
      split
      · simp [countFetchAttempts]
      · have := ih (a + 1)
        simp [countFetchAttempts]
        omega

/-- Every effect emitted by a retry chain is a fetch attempt, a retry
delay of the configured length, or a logout. -/
theorem fetchGo_effects (env : Nat → FetchOutcome) (rd : Nat) :
    ∀ remaining a e, e ∈ (fetchGo env rd remaining a).1 → isFetchPhase e = true := by
  intro remaining
  induction remaining with
  | zero =>
    intro a e he
    rw [fetchGo] at he
    revert he
    cases htb : tryBody (env a) with
    | success u =>
      intro he
      simp only [List.mem_singleton] at he
      subst he; rfl
    | authSuspend =>
      intro he
      simp only [List.mem_cons, List.not_mem_nil, or_false] at he
      rcases he with rfl | rfl <;> rfl
    | sessionSuspend =>
      intro he
      simp only [List.mem_cons, List.not_mem_nil, or_false] at he
      rcases he with rfl | rfl <;> rfl
    | httpError msg =>
      dsimp only
      split <;> intro he <;>
        simp only [List.mem_cons, List.not_mem_nil, or_false] at he
      · rcases he with rfl | rfl <;> rfl
      · subst he; rfl
    | threw msg =>
      dsimp only
      split <;> intro he <;>
        simp only [List.mem_cons, List.not_mem_nil, or_false] at he
      · rcases he with rfl | rfl <;> rfl
      · subst he; rfl
  | succ k ih =>
    intro a e he
    rw [fetchGo] at he
    revert he
    cases htb : tryBody (env a) with
    | success u =>
      intro he
      simp only [List.mem_singleton] at he
      subst he; rfl
    | authSuspend =>
      intro he
      simp only [List.mem_cons, List.not_mem_nil, or_false] at he
      rcases he with rfl | rfl <;> rfl
    | sessionSuspend =>
      intro he
      simp only [List.mem_cons, List.not_mem_nil, or_false] at he
      rcases he with rfl | rfl <;> rfl
    | httpError msg =>
      dsimp only
      intro he
      simp only [List.mem_cons] at he
      rcases he with rfl | rfl | h
      · rfl
      · rfl
      · exact ih (a + 1) e h
    | threw msg =>
      dsimp only
      split
      · intro he
        simp only [List.mem_cons, List.not_mem_nil, or_false] at he
        rcases he with rfl | rfl <;> rfl
      · intro he
        simp only [List.mem_cons] at he
        rcases he with rfl | rfl | h
        · rfl
        · rfl
        · exact ih (a + 1) e h

/-- Same statement for `fetchCurrentUser`. -/
theorem fetchCurrentUser_effects (env : Nat → FetchOutcome) (a mr rd : Nat) :
    ∀ e ∈ (fetchCurrentUser env a mr rd).1, isFetchPhase e = true := by
  intro e he
  exact fetchGo_effects env rd (mr - a) a e he

/-- A locale resolved from the Directory Service is a nonempty string. -/
theorem sfsf_locale_truthy (o : ODataOutcome) (l : String)
    (h : fetchUserLanguageFromSFSF o = some l) : l ≠ "" := by
  cases o with
  | failure => simp [fetchUserLanguageFromSFSF] at h
  | success results =>
    cases results with
    | nil => simp [fetchUserLanguageFromSFSF] at h
    | cons r rest =>
      cases hd : r.defaultLocale with
      | none => simp [fetchUserLanguageFromSFSF, hd] at h
      | some s =>
        by_cases hs : s = ""
        · simp [fetchUserLanguageFromSFSF, hd, hs] at h
        · simp [fetchUserLanguageFromSFSF, hd, hs] at h
          exact h ▸ hs

/-- Steps 3–5 with no resolved locale and no framework faults: read the
browser language, set it, mount. -/
theorem alm_none (env : MainEnv) (effs : List Eff)
    (hf0 : env.frameworkFaults 0 = false) (hf1 : env.frameworkFaults 1 = false) :
    applyLocaleAndMount env effs none =
      (effs ++ [Eff.readBrowserLanguage,
        Eff.setLanguage (getBrowserLanguage env.navLanguage env.navUserLanguage),
        Eff.mount], MainStatus.done) := by
  simp [applyLocaleAndMount, optTruthy, hf0, hf1]

/-- Steps 3–5 with a resolved nonempty locale and no framework faults:
set it (no browser read), mount. -/
theorem alm_some (env : MainEnv) (effs : List Eff) (l : String) (hl : l ≠ "")
    (hf0 : env.frameworkFaults 0 = false) (hf1 : env.frameworkFaults 1 = false) :
    applyLocaleAndMount env effs (some l) =
      (effs ++ [Eff.setLanguage l, Eff.mount], MainStatus.done) := by
  simp [applyLocaleAndMount, optTruthy, hl, hf0, hf1]

/-- Steps 3–5 only append browser-read, set-language and mount effects to
the incoming trace. -/
theorem alm_mem (env : MainEnv) (effs : List Eff) (sl : Option String) (e : Eff)
    (he : e ∈ (applyLocaleAndMount env effs sl).1) :
    e ∈ effs ∨ e = Eff.readBrowserLanguage ∨ (∃ s, e = Eff.setLanguage s)
      ∨ e = Eff.mount := by
  simp only [applyLocaleAndMount] at he
  split_ifs at he <;>
    simp only [List.mem_append, List.mem_cons, List.not_mem_nil, or_false] at he <;>
    aesop

/-- Steps 3–5 only append to the incoming trace (whatever faults
occur): the appended part is what they would emit from an empty trace. -/
theorem alm_shift (env : MainEnv) (effs : List Eff) (sl : Option String) :
    (applyLocaleAndMount env effs sl).1
      = effs ++ (applyLocaleAndMount env [] sl).1 := by
  simp only [applyLocaleAndMount]
  split_ifs <;> simp

/-- Steps 3–5 extend the incoming trace (whatever faults occur). -/
theorem alm_extends (env : MainEnv) (effs : List Eff) (sl : Option String) :
    ∃ rest, (applyLocaleAndMount env effs sl).1 = effs ++ rest :=
  ⟨(applyLocaleAndMount env [] sl).1, alm_shift env effs sl⟩

/-! ### Claims -/

/-- C1 (counterexample): with an HTTP-success response whose body is the
empty JSON object (truthy, no `name`), `fetchCurrentUser(1, 2, 50)` does
NOT fail immediately — it delays and retries — and on attempt 1 it is NOT
reclassified as a session error (no logout, no suspension): the invalid
user data error surfaces only after the retry budget is exhausted,
because its message contains neither `"JSON"` nor `"HTML"`. -/
theorem claim_C1_counterexample :
    fetchCurrentUser envEmptyObj 1 2 50
        = ([Eff.fetchAttempt 1, Eff.delay 50, Eff.fetchAttempt 2],
          FetchResult.err invalidUserMsg)
      ∧ Eff.logout ∉ (fetchCurrentUser envEmptyObj 1 2 50).1 := by
  have h : fetchCurrentUser envEmptyObj 1 2 50
      = ([Eff.fetchAttempt 1, Eff.delay 50, Eff.fetchAttempt 2],
        FetchResult.err invalidUserMsg) := rfl
  refine ⟨h, ?_⟩
  rw [h]
  simp

/-- C1 (amended): on an HTTP success whose JSON body parses to a truthy
value without a truthy `name` field, `fetchCurrentUser` throws the
invalid-user-data error, which the generic catch then treats like any
other error: it is retried (after `retryDelay`) while
`attempt < maxRetries` and surfaced to the caller otherwise; it is never
reclassified as a session error on attempt 1, because its message
contains neither `"JSON"` nor `"HTML"`. -/
theorem claim_C1 (env : Nat → FetchOutcome) (a mr rd : Nat) (r : Response) (v : Json)
    (he : env a = FetchOutcome.resp r) (hok : r.ok = true)
    (hp : parseJsonResponse r = some v) (ht : v.isTruthy = true)
    (hn : fieldTruthy v "name" = false) :
    (a < mr → fetchCurrentUser env a mr rd
        = (Eff.fetchAttempt a :: Eff.delay rd :: (fetchCurrentUser env (a + 1) mr rd).1,
          (fetchCurrentUser env (a + 1) mr rd).2))
    ∧ (¬ a < mr → fetchCurrentUser env a mr rd
        = ([Eff.fetchAttempt a], FetchResult.err invalidUserMsg)) := by
  have htb : tryBody (env a) = TryOut.threw invalidUserMsg := by
    rw [he]; simp [tryBody, hok, hp, ht, hn]
  have hj : jsIncludes invalidUserMsg "JSON" = false := by decide
  have hh : jsIncludes invalidUserMsg "HTML" = false := by decide
  have hinc : ¬ ((a == 1 && (jsIncludes invalidUserMsg "JSON"
      || jsIncludes invalidUserMsg "HTML")) = true) := by
    simp [hj, hh]
  constructor
  · intro h
    rw [fetchCurrentUser_unfold, htb]
    dsimp only
    rw [if_neg hinc, if_pos h]
  · intro h
    rw [fetchCurrentUser_unfold, htb]
    dsimp only
    rw [if_neg hinc, if_neg h]

/-- C1 (witness for the amended claim): concrete run of the retry branch
at attempt 1. -/
theorem claim_C1_witness :
    fetchCurrentUser envEmptyObj 1 2 50
      = (Eff.fetchAttempt 1 :: Eff.delay 50 :: (fetchCurrentUser envEmptyObj 2 2 50).1,
        (fetchCurrentUser envEmptyObj 2 2 50).2) :=
  (claim_C1 envEmptyObj 1 2 50 respEmptyObj (Json.obj []) rfl rfl rfl rfl rfl).1
    (by decide)

/-- C2: if attempts 1–4 fail with generic (non-auth, non-session) errors
and attempt 5 delivers a valid JSON user, then `fetchCurrentUser(1, 5, 1000)`
resolves with that user after exactly 5 fetch attempts separated by
exactly 4 delays of 1000 ms. -/
theorem claim_C2 (env : Nat → FetchOutcome) (r5 : Response) (u : Json)
    (hgen : ∀ n, 1 ≤ n → n ≤ 4 → genericFailureAt env n)
    (h5 : env 5 = FetchOutcome.resp r5) (h5ok : r5.ok = true)
    (h5p : parseJsonResponse r5 = some u) (h5t : u.isTruthy = true)
    (h5n : fieldTruthy u "name" = true) :
    fetchCurrentUser env 1 5 1000 =
      ([Eff.fetchAttempt 1, Eff.delay 1000, Eff.fetchAttempt 2, Eff.delay 1000,
        Eff.fetchAttempt 3, Eff.delay 1000, Eff.fetchAttempt 4, Eff.delay 1000,
        Eff.fetchAttempt 5], FetchResult.ok u) := by
  have e5 := fetch_success_step env 5 5 1000 r5 u h5 h5ok h5p h5t h5n
  have e4 := fetch_retry_step env 4 5 1000 (by omega) (hgen 4 (by omega) (by omega))
  have e3 := fetch_retry_step env 3 5 1000 (by omega) (hgen 3 (by omega) (by omega))
  have e2 := fetch_retry_step env 2 5 1000 (by omega) (hgen 2 (by omega) (by omega))
  have e1 := fetch_retry_step env 1 5 1000 (by omega) (hgen 1 (by omega) (by omega))
  rw [e1, e2, e3, e4, e5]

/-- C2 (witness): generic 500 on attempts 1–4, valid user on attempt 5. -/
theorem claim_C2_witness :
    fetchCurrentUser envFlaky 1 5 1000 =
      ([Eff.fetchAttempt 1, Eff.delay 1000, Eff.fetchAttempt 2, Eff.delay 1000,
        Eff.fetchAttempt 3, Eff.delay 1000, Eff.fetchAttempt 4, Eff.delay 1000,
        Eff.fetchAttempt 5], FetchResult.ok userAlice) :=
  claim_C2 envFlaky respAlice userAlice
    (by intro n h1 h4; interval_cases n <;> exact ⟨rfl, by decide, by decide⟩)
    rfl rfl rfl rfl rfl

/-- C3: on any attempt whose response has status 401 or 403,
`fetchCurrentUser` issues exactly one logout request (the
`forceLogoutAndReload` side effect) and then suspends forever — it
neither resolves nor rejects, and no further fetch attempt or delay
occurs. -/
theorem claim_C3 (env : Nat → FetchOutcome) (a mr rd : Nat) (r : Response)
    (he : env a = FetchOutcome.resp r) (hst : r.status = 401 ∨ r.status = 403) :
    fetchCurrentUser env a mr rd
      = ([Eff.fetchAttempt a, Eff.logout], FetchResult.suspend) := by
  have hok : r.ok = false := by
    rcases hst with h | h <;> simp [Response.ok, h]
  have htb : tryBody (env a) = TryOut.authSuspend := by
    rw [he]; simp [tryBody, hok, hst]
  rw [fetchCurrentUser_unfold, htb]

/-- C3 (witness): a 401 response on attempt 1. -/
theorem claim_C3_witness :
    fetchCurrentUser env401 1 5 1000
      = ([Eff.fetchAttempt 1, Eff.logout], FetchResult.suspend) :=
  claim_C3 env401 1 5 1000 resp401 rfl (Or.inl rfl)

/-- C9: `parseJsonResponse` returns `null` not only on HTML bodies but
whenever `JSON.parse` fails for any reason, and inside `fetchCurrentUser`
every such `null` on an HTTP-success response triggers forced
re-authentication (one logout) and permanent suspension; the empty body
witnesses that this trigger is strictly broader than the HTML-only
session-expired case. -/
theorem claim_C9 :
    (∀ r : Response, jsonParse r.body = none → parseJsonResponse r = none)
    ∧ (∀ (env : Nat → FetchOutcome) (a mr rd : Nat) (r : Response),
        env a = FetchOutcome.resp r → r.ok = true → parseJsonResponse r = none →
        fetchCurrentUser env a mr rd
          = ([Eff.fetchAttempt a, Eff.logout], FetchResult.suspend))
    ∧ jsonParse "" = none ∧ isHtmlBody "" = false := by
  refine ⟨?_, ?_, rfl, rfl⟩
  · intro r hp
    unfold parseJsonResponse
    split
    · rfl
    · exact hp
  · intro env a mr rd r he hok hp
    have htb : tryBody (env a) = TryOut.sessionSuspend := by
      rw [he]; simp [tryBody, hok, hp]
    rw [fetchCurrentUser_unfold, htb]

/-- C9 (witness): an empty (non-HTML, unparsable) body on an HTTP 200
response suspends after one logout. -/
theorem claim_C9_witness :
    fetchCurrentUser envEmptyBody 1 5 1000
      = ([Eff.fetchAttempt 1, Eff.logout], FetchResult.suspend) :=
  claim_C9.2.1 envEmptyBody 1 5 1000 respEmptyBody rfl rfl rfl

/-- C10: starting from any attempt `a` with `1 ≤ a ≤ maxRetries`, the
retry chain of `fetchCurrentUser` performs at most `maxRetries` fetch
attempts in total (and, being a total function of the environment, it
terminates on every path of the model). -/
theorem claim_C10 (env : Nat → FetchOutcome) (a mr rd : Nat)
    (h1 : 1 ≤ a) (h2 : a ≤ mr) :
    countFetchAttempts (fetchCurrentUser env a mr rd).1 ≤ mr := by
  have hb := fetchGo_count env rd (mr - a) a
  have he : fetchCurrentUser env a mr rd = fetchGo env rd (mr - a) a := rfl
  rw [he]
  omega

/-- C10 (witness): a two-attempt chain performs at most two fetches. -/
theorem claim_C10_witness :
    countFetchAttempts (fetchCurrentUser envNetworkDown 1 2 5).1 ≤ 2 :=
  claim_C10 envNetworkDown 1 2 5 (by decide) (by decide)

/-- C6: for every pair of navigator language fields, the effective
lower-cased tag maps through the table (plain, hyphenated and
underscored forms of es/ca/en), every other tag — unsupported,
unrecognised or absent — yields `en_US`, and the result is always one of
the supported locales `es_ES`, `ca_ES`, `en_US`. -/
theorem claim_C6 (language userLanguage : Option String) :
    (getBrowserLanguage language userLanguage = "es_ES"
      ∨ getBrowserLanguage language userLanguage = "ca_ES"
      ∨ getBrowserLanguage language userLanguage = "en_US")
    ∧ (browserTag language userLanguage = "es"
        ∨ browserTag language userLanguage = "es-es"
        ∨ browserTag language userLanguage = "es_es" →
        getBrowserLanguage language userLanguage = "es_ES")
    ∧ (browserTag language userLanguage = "ca"
        ∨ browserTag language userLanguage = "ca-es"
        ∨ browserTag language userLanguage = "ca_es" →
        getBrowserLanguage language userLanguage = "ca_ES")
    ∧ (browserTag language userLanguage = "en"
        ∨ browserTag language userLanguage = "en-us"
        ∨ browserTag language userLanguage = "en_us" →
        getBrowserLanguage language userLanguage = "en_US")
    ∧ (¬ (browserTag language userLanguage = "es"
        ∨ browserTag language userLanguage = "es-es"
        ∨ browserTag language userLanguage = "es_es"
        ∨ browserTag language userLanguage = "ca"
        ∨ browserTag language userLanguage = "ca-es"
        ∨ browserTag language userLanguage = "ca_es"
        ∨ browserTag language userLanguage = "en"
        ∨ browserTag language userLanguage = "en-us"
        ∨ browserTag language userLanguage = "en_us") →
        getBrowserLanguage language userLanguage = "en_US") := by
  refine ⟨?_, ?_, ?_, ?_, ?_⟩
  · unfold getBrowserLanguage
    generalize browserTag language userLanguage = s
    unfold mMap
    split_ifs <;> simp [jsOrStr]
  · intro h
    unfold getBrowserLanguage
    rcases h with h | h | h <;> rw [h] <;> rfl
  · intro h
    unfold getBrowserLanguage
    rcases h with h | h | h <;> rw [h] <;> rfl
  · intro h
    unfold getBrowserLanguage
    rcases h with h | h | h <;> rw [h] <;> rfl
  · intro h
    push_neg at h
    obtain ⟨n1, n2, n3, n4, n5, n6, n7, n8, n9⟩ := h
    unfold getBrowserLanguage
    unfold mMap
    split_ifs <;> simp_all [jsOrStr]

/-- C6 (witness): an upper-case plain tag maps through the table. -/
theorem claim_C6_witness :
    getBrowserLanguage (some "CA") none = "ca_ES" :=
  (claim_C6 (some "CA") none).2.2.1 (Or.inl (by decide))

/-- C4: when all 5 attempts fail with generic (non-auth, non-session)
errors, `fetchCurrentUser(1, 5, 1000)` rejects with an error carrying the
last failure's message after the full retry trace, and `main`
nevertheless proceeds: it reads the browser language, sets that fallback
locale and mounts the application. -/
theorem claim_C4 (env : MainEnv)
    (hgen : ∀ n, 1 ≤ n → n ≤ 5 → genericFailureAt env.fetchEnv n)
    (hf0 : env.frameworkFaults 0 = false) (hf1 : env.frameworkFaults 1 = false) :
    fetchCurrentUser env.fetchEnv 1 5 1000 =
      ([Eff.fetchAttempt 1, Eff.delay 1000, Eff.fetchAttempt 2, Eff.delay 1000,
        Eff.fetchAttempt 3, Eff.delay 1000, Eff.fetchAttempt 4, Eff.delay 1000,
        Eff.fetchAttempt 5], FetchResult.err (failureMsg (env.fetchEnv 5)))
    ∧ mainRun env =
      ([Eff.fetchAttempt 1, Eff.delay 1000, Eff.fetchAttempt 2, Eff.delay 1000,
        Eff.fetchAttempt 3, Eff.delay 1000, Eff.fetchAttempt 4, Eff.delay 1000,
        Eff.fetchAttempt 5, Eff.readBrowserLanguage,
        Eff.setLanguage (getBrowserLanguage env.navLanguage env.navUserLanguage),
        Eff.mount], MainStatus.done) := by
  have e5 := fetch_final_step env.fetchEnv 5 5 1000 (by omega) (by omega)
    (hgen 5 (by omega) (by omega))
  have e4 := fetch_retry_step env.fetchEnv 4 5 1000 (by omega) (hgen 4 (by omega) (by omega))
  have e3 := fetch_retry_step env.fetchEnv 3 5 1000 (by omega) (hgen 3 (by omega) (by omega))
  have e2 := fetch_retry_step env.fetchEnv 2 5 1000 (by omega) (hgen 2 (by omega) (by omega))
  have e1 := fetch_retry_step env.fetchEnv 1 5 1000 (by omega) (hgen 1 (by omega) (by omega))
  have hfetch : fetchCurrentUser env.fetchEnv 1 5 1000 =
      ([Eff.fetchAttempt 1, Eff.delay 1000, Eff.fetchAttempt 2, Eff.delay 1000,
        Eff.fetchAttempt 3, Eff.delay 1000, Eff.fetchAttempt 4, Eff.delay 1000,
        Eff.fetchAttempt 5], FetchResult.err (failureMsg (env.fetchEnv 5))) := by
    rw [e1, e2, e3, e4, e5]
  refine ⟨hfetch, ?_⟩
  simp only [mainRun, hfetch]
  rw [alm_none env _ hf0 hf1]
  rfl

/-- C4 (witness): every attempt rejects with a plain network error; the
application still mounts with the browser-derived locale. -/
theorem claim_C4_witness :
    fetchCurrentUser menvAllFail.fetchEnv 1 5 1000 =
      ([Eff.fetchAttempt 1, Eff.delay 1000, Eff.fetchAttempt 2, Eff.delay 1000,
        Eff.fetchAttempt 3, Eff.delay 1000, Eff.fetchAttempt 4, Eff.delay 1000,
        Eff.fetchAttempt 5], FetchResult.err (failureMsg (menvAllFail.fetchEnv 5)))
    ∧ mainRun menvAllFail =
      ([Eff.fetchAttempt 1, Eff.delay 1000, Eff.fetchAttempt 2, Eff.delay 1000,
        Eff.fetchAttempt 3, Eff.delay 1000, Eff.fetchAttempt 4, Eff.delay 1000,
        Eff.fetchAttempt 5, Eff.readBrowserLanguage,
        Eff.setLanguage (getBrowserLanguage menvAllFail.navLanguage menvAllFail.navUserLanguage),
        Eff.mount], MainStatus.done) :=
  claim_C4 menvAllFail
    (by intro n h1 h5; exact ⟨by decide, by decide⟩) rfl rfl

/-- C5: whenever `main` rejects, the top-level catch handler reads the
browser fallback locale, applies it and mounts the root component (its
own calls succeeding), so the bootstrap completes with the application
mounted. -/
theorem claim_C5 (env : MainEnv) (effs : List Eff)
    (h : mainRun env = (effs, MainStatus.errored))
    (hf2 : env.frameworkFaults 2 = false) (hf3 : env.frameworkFaults 3 = false) :
    bootstrap env =
      (effs ++ [Eff.readBrowserLanguage,
        Eff.setLanguage (getBrowserLanguage env.navLanguage env.navUserLanguage),
        Eff.mount], MainStatus.done) := by
  simp only [bootstrap, h]
  simp [hf2, hf3]

/-- C7: locale resolution from the Directory Service returns the first
record's `defaultLocale` when it is a nonempty string and `null` when
the result list is empty, the field is absent or empty, or the query
errors (never rejecting, by construction of the model); inside `main`,
a resolved locale is applied without consulting the browser fallback,
while a `null` locale makes `main` fall back to the browser language. -/
theorem claim_C7 :
    (∀ (rest : List SFSFRecord) (uid : Option String) (s : String), s ≠ "" →
      fetchUserLanguageFromSFSF (ODataOutcome.success (⟨uid, some s⟩ :: rest)) = some s)
    ∧ fetchUserLanguageFromSFSF (ODataOutcome.success []) = none
    ∧ (∀ (rest : List SFSFRecord) (uid : Option String),
        fetchUserLanguageFromSFSF (ODataOutcome.success (⟨uid, none⟩ :: rest)) = none
        ∧ fetchUserLanguageFromSFSF (ODataOutcome.success (⟨uid, some ""⟩ :: rest)) = none)
    ∧ fetchUserLanguageFromSFSF ODataOutcome.failure = none
    ∧ (∀ (env : MainEnv) (fs : List Eff) (u : Json) (l : String),
        fetchCurrentUser env.fetchEnv 1 5 1000 = (fs, FetchResult.ok u) →
        u.isTruthy = true → fieldTruthy u "name" = true →
        fetchUserLanguageFromSFSF env.odata = some l →
        env.frameworkFaults 0 = false → env.frameworkFaults 1 = false →
        mainRun env = (fs ++ [Eff.sessionSet "com:missolicitudes:userInfo" u.stringify,
          Eff.sfsfQuery ((u.getField "name").getD Json.null), Eff.setLanguage l,
          Eff.mount], MainStatus.done)
        ∧ Eff.readBrowserLanguage ∉ (mainRun env).1)
    ∧ (∀ (env : MainEnv) (fs : List Eff) (u : Json),
        fetchCurrentUser env.fetchEnv 1 5 1000 = (fs, FetchResult.ok u) →
        u.isTruthy = true → fieldTruthy u "name" = true →
        fetchUserLanguageFromSFSF env.odata = none →
        env.frameworkFaults 0 = false → env.frameworkFaults 1 = false →
        mainRun env = (fs ++ [Eff.sessionSet "com:missolicitudes:userInfo" u.stringify,
          Eff.sfsfQuery ((u.getField "name").getD Json.null), Eff.readBrowserLanguage,
          Eff.setLanguage (getBrowserLanguage env.navLanguage env.navUserLanguage),
          Eff.mount], MainStatus.done)) := by
  refine ⟨?_, rfl, ?_, rfl, ?_, ?_⟩
  · intro rest uid s hs
    simp [fetchUserLanguageFromSFSF, hs]
  · intro rest uid
    exact ⟨rfl, rfl⟩
  · intro env fs u l hf ht hn hsf hf0 hf1
    have hfs : ∀ e ∈ fs, isFetchPhase e = true := by
      have h := fetchCurrentUser_effects env.fetchEnv 1 5 1000
      rw [hf] at h
      exact h
    have hm : mainRun env = (fs ++ [Eff.sessionSet "com:missolicitudes:userInfo" u.stringify,
        Eff.sfsfQuery ((u.getField "name").getD Json.null), Eff.setLanguage l,
        Eff.mount], MainStatus.done) := by
      simp only [mainRun, hf]
      rw [if_pos (by rw [ht, hn]; rfl), hsf,
        alm_some env _ l (sfsf_locale_truthy env.odata l hsf) hf0 hf1]
      simp
    refine ⟨hm, ?_⟩
    rw [hm]
    intro hmem
    rcases List.mem_append.mp hmem with h | h
    · have h2 := hfs _ h
      simp [isFetchPhase] at h2
    · simp at h
  · intro env fs u hf ht hn hsf hf0 hf1
    simp only [mainRun, hf]
    rw [if_pos (by rw [ht, hn]; rfl), hsf, alm_none env _ hf0 hf1]
    simp

/-- C7 (witness): a Directory Service record with `ca_ES` is applied with
no browser fallback read. -/
theorem claim_C7_witness :
    mainRun menvFlaky =
      ([Eff.fetchAttempt 1, Eff.delay 1000, Eff.fetchAttempt 2, Eff.delay 1000,
        Eff.fetchAttempt 3, Eff.delay 1000, Eff.fetchAttempt 4, Eff.delay 1000,
        Eff.fetchAttempt 5]
        ++ [Eff.sessionSet "com:missolicitudes:userInfo" userAlice.stringify,
          Eff.sfsfQuery ((userAlice.getField "name").getD Json.null),
          Eff.setLanguage "ca_ES", Eff.mount], MainStatus.done)
    ∧ Eff.readBrowserLanguage ∉ (mainRun menvFlaky).1 :=
  claim_C7.2.2.2.2.1 menvFlaky
    [Eff.fetchAttempt 1, Eff.delay 1000, Eff.fetchAttempt 2, Eff.delay 1000,
      Eff.fetchAttempt 3, Eff.delay 1000, Eff.fetchAttempt 4, Eff.delay 1000,
      Eff.fetchAttempt 5] userAlice "ca_ES" rfl rfl rfl rfl rfl rfl

/-- C8: whenever the user fetch resolves, `main` stores the serialised
user under the session key `com:missolicitudes:userInfo` immediately
after the fetch-phase effects — hence before any locale query, locale
application or mounting — and on every non-resolving path of the user
fetch nothing is ever stored under that key. -/
theorem claim_C8 (env : MainEnv) :
    (∀ (fs : List Eff) (u : Json),
      fetchCurrentUser env.fetchEnv 1 5 1000 = (fs, FetchResult.ok u) →
      (∀ e ∈ fs, isFetchPhase e = true)
      ∧ ∃ rest, (mainRun env).1
          = fs ++ Eff.sessionSet "com:missolicitudes:userInfo" u.stringify :: rest)
    ∧ (∀ (fs : List Eff) (res : FetchResult),
        fetchCurrentUser env.fetchEnv 1 5 1000 = (fs, res) →
        (∀ u, res ≠ FetchResult.ok u) →
        ∀ v, Eff.sessionSet "com:missolicitudes:userInfo" v ∉ (mainRun env).1) := by
  constructor
  · intro fs u hf
    constructor
    · intro e he
      have h := fetchCurrentUser_effects env.fetchEnv 1 5 1000
      rw [hf] at h
      exact h e he
    · simp only [mainRun, hf]
      by_cases hname : (u.isTruthy && fieldTruthy u "name") = true
      · rw [if_pos hname]
        obtain ⟨r2, hr2⟩ := alm_extends env
          (fs ++ [Eff.sessionSet "com:missolicitudes:userInfo" u.stringify]
            ++ [Eff.sfsfQuery ((u.getField "name").getD Json.null)])
          (fetchUserLanguageFromSFSF env.odata)
        rw [hr2]
        exact ⟨Eff.sfsfQuery ((u.getField "name").getD Json.null) :: r2, by simp⟩
      · rw [if_neg hname]
        obtain ⟨r2, hr2⟩ := alm_extends env
          (fs ++ [Eff.sessionSet "com:missolicitudes:userInfo" u.stringify]) none
        rw [hr2]
        exact ⟨r2, by simp⟩
  · intro fs res hf hres v
    cases res with
    | ok u => exact absurd rfl (hres u)
    | err m =>
      simp only [mainRun, hf]
      intro hmem
      rcases alm_mem env fs none _ hmem with h | h | h | h
      · have h0 := fetchCurrentUser_effects env.fetchEnv 1 5 1000
        rw [hf] at h0
        have h2 := h0 _ h
        simp [isFetchPhase] at h2
      · simp at h
      · obtain ⟨s, hs⟩ := h
        simp at hs
      · simp at h
    | suspend =>
      simp only [mainRun, hf]
      intro hmem
      have h0 := fetchCurrentUser_effects env.fetchEnv 1 5 1000
      rw [hf] at h0
      have h2 := h0 _ hmem
      simp [isFetchPhase] at h2

/-- C8 (witness): immediate success stores the serialised user right
after the single fetch attempt. -/
theorem claim_C8_witness :
    (∀ e ∈ [Eff.fetchAttempt 1], isFetchPhase e = true)
    ∧ ∃ rest, (mainRun menvQuick).1
        = [Eff.fetchAttempt 1]
          ++ Eff.sessionSet "com:missolicitudes:userInfo" userAlice.stringify :: rest :=
  (claim_C8 menvQuick).1 [Eff.fetchAttempt 1] userAlice rfl

/-- C5 (witness): the `setLanguage` call inside `main` throws; the
handler still mounts with the browser locale. -/
theorem claim_C5_witness :
    bootstrap menvMainFaults =
      ([Eff.fetchAttempt 1, Eff.delay 1000, Eff.fetchAttempt 2, Eff.delay 1000,
        Eff.fetchAttempt 3, Eff.delay 1000, Eff.fetchAttempt 4, Eff.delay 1000,
        Eff.fetchAttempt 5, Eff.readBrowserLanguage,
        Eff.setLanguage (getBrowserLanguage menvMainFaults.navLanguage menvMainFaults.navUserLanguage)]
      ++ [Eff.readBrowserLanguage,
        Eff.setLanguage (getBrowserLanguage menvMainFaults.navLanguage menvMainFaults.navUserLanguage),
        Eff.mount], MainStatus.done) :=
  claim_C5 menvMainFaults _ rfl rfl rfl

end Missolicitudes
